import Mathlib

/-!
Shallow embedding of the chatbot_njs ingestion pipeline and
retrieval-augmented answering agent, together with proofs of the
specification claims about them.

Texts are modelled as `List Char` (JS strings, indexed by code unit).
External collaborators (file system, PDF extraction, embedding provider,
vector/tabular store back end, reasoning model) are modelled as oracle
parameters; the code under `src/lib` is translated directly.
-/

set_option maxHeartbeats 1000000
set_option maxRecDepth 100000

deriving instance DecidableEq for Except

/-- JS strings are modelled as lists of characters. -/
abbrev Str := List Char

/-- Convert a Lean string literal to the `Str` model. -/
def str (s : String) : Str := s.toList

/-- `CHUNK_SIZE` from `src/lib/config.ts` / `validation.ts`. -/
def CHUNK_SIZE : Nat := 1000

/-- `CHUNK_OVERLAP` from `src/lib/config.ts` / `validation.ts`. -/
def CHUNK_OVERLAP : Nat := 200

/-- Decimal rendering of a natural number, with explicit fuel
(the fuel `n + 1` always suffices since `n / 10 < n` for `n ≥ 10`).
Models JS template interpolation of a number. -/
def natToStrGo : Nat → Nat → Str
  | 0, _ => []
  | fuel + 1, n =>
    if n < 10 then [Nat.digitChar n]
    else natToStrGo fuel (n / 10) ++ [Nat.digitChar (n % 10)]

/-- Decimal rendering of a natural number. -/
def natToStr (n : Nat) : Str := natToStrGo (n + 1) n

/--
`DataLoaderService.chunkText` (src/lib/services/dataLoaderService.ts:375-386):

  while (start < text.length) {
    const end = Math.min(start + chunkSize, text.length);
    chunks.push(text.slice(start, end));
    start += chunkSize - overlap;
  }

`text.slice(start, min(start+chunkSize, len))` is `(text.drop start).take
chunkSize`, since `List.take` clamps at the end of the list exactly as
`slice` does.  The loop advances `start` by `chunkSize - overlap` each
iteration; the fuel `text.length + 1` is enough for every terminating run
(whenever `overlap < chunkSize`, each iteration advances `start` by at
least one). -/
def chunkTextGo (text : Str) (chunkSize overlap : Nat) : Nat → Nat → List Str
  | 0, _ => []
  | fuel + 1, start =>
    if start < text.length then
      (text.drop start).take chunkSize ::
        chunkTextGo text chunkSize overlap fuel (start + (chunkSize - overlap))
    else []

/-- `chunkText` with the loop started at `start = 0`. -/
def chunkText (text : Str) (chunkSize overlap : Nat) : List Str :=
  chunkTextGo text chunkSize overlap (text.length + 1) 0

/-- Reassembly of a chunk sequence: keep the first chunk whole and strip
the leading `overlap` characters from every later chunk (the spec's
"concatenating chunks with overlap removed"). -/
def unchunk (overlap : Nat) : List Str → Str
  | [] => []
  | c :: cs => c ++ (cs.map (List.drop overlap)).flatten

theorem chunkTextGo_closed_form (text : Str) :
    ∀ fuel start, text.length ≤ start + 800 * fuel →
      chunkTextGo text 1000 200 fuel start =
        (List.range ((text.length - start + 799) / 800)).map
          (fun i => (text.drop (start + 800 * i)).take 1000) := by
  intro fuel
  induction fuel with
  | zero =>
    intro start h
    have hz : (text.length - start + 799) / 800 = 0 := by omega
    simp [chunkTextGo, hz]
  | succ fuel ih =>
    intro start h
    by_cases hs : start < text.length
    · have hk : (text.length - start + 799) / 800 =
          (text.length - (start + 800) + 799) / 800 + 1 := by omega
      rw [chunkTextGo, if_pos hs, hk, List.range_succ_eq_map, List.map_cons, List.map_map]
      have h800 : (1000 : Nat) - 200 = 800 := by norm_num
      rw [h800, ih (start + 800) (by omega)]
      congr 1
      apply List.map_congr_left
      intro i _
      simp only [Function.comp_apply]
      congr 2
      omega
    · have hz : (text.length - start + 799) / 800 = 0 := by omega
      rw [chunkTextGo, if_neg hs]
      simp [hz]

theorem chunkText_closed_form (text : Str) :
    chunkText text 1000 200 =
      (List.range ((text.length + 799) / 800)).map
        (fun i => (text.drop (800 * i)).take 1000) := by
  have h := chunkTextGo_closed_form text (text.length + 1) 0 (by omega)
  simpa [chunkText] using h

theorem chunkTextGo_reassemble (text : Str) :
    ∀ fuel start, text.length ≤ start + 800 * fuel →
      ((chunkTextGo text 1000 200 fuel start).map (List.drop 200)).flatten =
        text.drop (start + 200) := by
  intro fuel
  induction fuel with
  | zero =>
    intro start h
    have : text.length ≤ start + 200 := by omega
    simp [chunkTextGo, List.drop_eq_nil_of_le this]
  | succ fuel ih =>
    intro start h
    by_cases hs : start < text.length
    · rw [chunkTextGo, if_pos hs]
      have h800 : (1000 : Nat) - 200 = 800 := by norm_num
      rw [h800]
      simp only [List.map_cons, List.flatten_cons]
      rw [ih (start + 800) (by omega)]
      rw [List.drop_take]
      have hdd : text.drop (start + 800 + 200) = (text.drop (start + 200)).drop 800 := by
        rw [List.drop_drop]
      have hdt : (text.drop start).drop 200 = text.drop (start + 200) := by
        rw [List.drop_drop]
      rw [hdd, hdt]
      exact List.take_append_drop _ _
    · rw [chunkTextGo, if_neg hs]
      have : text.length ≤ start + 200 := by omega
      simp [List.drop_eq_nil_of_le this]

theorem chunkText_reassemble (text : Str) :
    unchunk 200 (chunkText text 1000 200) = text := by
  rcases Nat.eq_zero_or_pos text.length with h0 | hpos
  · have : text = [] := List.length_eq_zero.mp h0
    subst this
    rfl
  · rw [chunkText, chunkTextGo, if_pos hpos, unchunk]
    rw [chunkTextGo_reassemble text text.length 800 (by omega)]
    have h1000 : (800 : Nat) + 200 = 1000 := by norm_num
    rw [h1000, List.drop_zero]
    exact List.take_append_drop _ _

theorem chunkText_getElem (text : Str) (i : Nat)
    (hi : i < (chunkText text 1000 200).length) :
    (chunkText text 1000 200)[i]? = some ((text.drop (800 * i)).take 1000) := by
  rw [chunkText_closed_form] at hi ⊢
  simp only [List.length_map, List.length_range] at hi
  simp [List.getElem?_map, List.getElem?_range, hi]

/-- **C1** (corrected).  `chunkText` with window 1000 and overlap 200:
chunk `i` is the 1000-character window of the text starting at `800 * i`
(so successive chunks start exactly `windowSize - overlap = 800`
characters apart); the number of chunks is `⌈length / 800⌉`; every chunk
except possibly the **last two** is exactly 1000 characters long; the
last chunk runs exactly to the end of the text (truncated, never
padded); and concatenating the chunks with the 200-character overlaps
removed reconstructs the original text.  (The original claim said every
chunk except possibly the last is full-size; the second-to-last chunk is
also short whenever the text ends less than 1000 characters after its
start — see the counterexample.) -/
theorem C1_chunkText_window_overlap (text : Str) :
    (chunkText text 1000 200).length = (text.length + 799) / 800
    ∧ (∀ i, i < (chunkText text 1000 200).length →
        (chunkText text 1000 200)[i]? = some ((text.drop (800 * i)).take 1000))
    ∧ (∀ i, i + 2 < (chunkText text 1000 200).length →
        ((chunkText text 1000 200)[i]?).map List.length = some 1000)
    ∧ (0 < (chunkText text 1000 200).length →
        (chunkText text 1000 200)[(chunkText text 1000 200).length - 1]? =
          some (text.drop (800 * ((chunkText text 1000 200).length - 1))))
    ∧ unchunk 200 (chunkText text 1000 200) = text := by
  have hlen : (chunkText text 1000 200).length = (text.length + 799) / 800 := by
    rw [chunkText_closed_form]
    simp
  refine ⟨hlen, chunkText_getElem text, ?_, ?_, chunkText_reassemble text⟩
  · intro i hi
    rw [chunkText_getElem text i (by omega)]
    rw [hlen] at hi
    have hfull : ((text.drop (800 * i)).take 1000).length = 1000 := by
      simp only [List.length_take, List.length_drop]
      omega
    simp [hfull]
  · intro hpos
    rw [chunkText_getElem text _ (by omega)]
    rw [hlen] at hpos ⊢
    congr 1
    apply List.take_of_length_le
    simp only [List.length_drop]
    omega

theorem chunkText_replicate_lengths (c : Char) (n : Nat) :
    (chunkText (List.replicate n c) 1000 200).map List.length =
      (List.range ((n + 799) / 800)).map (fun i => min 1000 (n - 800 * i)) := by
  rw [chunkText_closed_form, List.map_map]
  simp only [List.length_replicate]
  apply List.map_congr_left
  intro i _
  simp [List.length_take, List.length_drop, List.length_replicate]

/-- Witness for C1 at the spec's 2200-character document: 3 chunks and
exact reassembly. -/
theorem C1_chunkText_window_overlap_witness :
    (chunkText (List.replicate 2200 'x') 1000 200).length = 3
    ∧ unchunk 200 (chunkText (List.replicate 2200 'x') 1000 200) =
        List.replicate 2200 'x' := by
  have h := C1_chunkText_window_overlap (List.replicate 2200 'x')
  refine ⟨h.1.trans (by norm_num), h.2.2.2.2⟩

/-- **C1 counterexample.**  On a 900-character text the loop produces two
chunks of lengths 900 and 100: the first chunk is not the last chunk and
is not 1000 characters long, refuting "every chunk except possibly the
last is exactly windowSize characters long". -/
theorem C1_counterexample :
    (chunkText (List.replicate 900 'a') 1000 200).length = 2
    ∧ ((chunkText (List.replicate 900 'a') 1000 200).map List.length) = [900, 100]
    ∧ (900 : Nat) ≠ 1000 := by
  have h := chunkText_replicate_lengths 'a' 900
  have hmap : (chunkText (List.replicate 900 'a') 1000 200).map List.length = [900, 100] := by
    rw [h]
    decide
  refine ⟨?_, hmap, by decide⟩
  have := congrArg List.length hmap
  simpa using this

/-- JS `\s` (whitespace class), restricted to the ASCII whitespace
characters; the citation pattern only ever has ordinary spaces there. -/
def isSpaceChar (c : Char) : Bool :=
  c = ' ' || c = '\t' || c = '\n' || c = '\r'

/-- JS `\d` (decimal digit). -/
def isDigitChar (c : Char) : Bool :=
  '0' ≤ c && c ≤ '9'

/-- A character allowed inside the file-name part of a citation token:
the regex class is negated on comma and closing bracket. -/
def isTokenChar (c : Char) : Bool :=
  !(c = ',' || c = ']')

/--
Matching of `CITATION_PATTERN` from src/lib/config.ts:36,

  /\[([^,\]]+),\s*p\.(\d+)\]/g

anchored at the beginning of the given suffix of the answer text.
Returns the full matched substring together with the remaining text
after the match.  Since the character classes of the pattern exclude the
characters that delimit them, maximal-munch matching needs no
backtracking and coincides with the JS regex engine. -/
def matchCitationAt : Str → Option (Str × Str)
  | '[' :: rest =>
    let inner := rest.takeWhile isTokenChar
    if inner.isEmpty then none
    else
      match rest.drop inner.length with
      | ',' :: rest2 =>
        let ws := rest2.takeWhile isSpaceChar
        match rest2.drop ws.length with
        | 'p' :: '.' :: rest3 =>
          let digits := rest3.takeWhile isDigitChar
          if digits.isEmpty then none
          else
            match rest3.drop digits.length with
            | ']' :: rest4 =>
              some ('[' :: inner ++ ',' :: ws ++ 'p' :: '.' :: digits ++ [']'], rest4)
            | _ => none
        | _ => none
      | _ => none
  | _ => none

/-- `answer.matchAll(CITATION_PATTERN)`: successive non-overlapping
matches, scanning left to right (on failure the scan advances one
character; a successful match resumes after its end, as the JS `g`-flag
`lastIndex` does).  The fuel `s.length` suffices because every step
consumes at least one character. -/
def citationMatchesGo : Nat → Str → List Str
  | 0, _ => []
  | _, [] => []
  | fuel + 1, c :: cs =>
    match matchCitationAt (c :: cs) with
    | some (tok, rest) => tok :: citationMatchesGo fuel rest
    | none => citationMatchesGo fuel cs

/-- All citation-pattern matches of the answer text, in order. -/
def citationMatches (answer : Str) : List Str :=
  citationMatchesGo answer.length answer

/-- The value stored in `citationDetails.details[expectedCitation]` by
`ChatAgent.buildPrompt`: the document's metadata together with the raw
chunk text.  Metadata values are modelled already stringified (the
`String(value)` coercion applied in `extractCitations` is the identity
on this model). -/
structure CitationMeta where
  fields : List (Str × Str)
  chunk_text : Str
deriving DecidableEq

/-- The token → metadata map (a JS object keyed by token text, here an
association list in insertion order). -/
abbrev CitationDetails := List (Str × CitationMeta)

/-- JS object property read `citationDetails.details[tok]`. -/
def lookupDetails (details : CitationDetails) (tok : Str) : Option CitationMeta :=
  (details.find? (fun p => p.1 = tok)).map Prod.snd

/-- One resolved citation as returned by `ChatAgent.extractCitations`. -/
structure Citation where
  label : Str
  metadata : List (Str × Str)
  chunk_text : Str
deriving DecidableEq

/-- `ChatAgent.extractCitations` (src/lib/agents/chatAgent.ts:185-220):
iterate over the regex matches keeping a `seen` set of token texts;
a token already seen is skipped; otherwise it is added to `seen` and,
when it resolves in the details map, a citation is emitted; an
unresolvable token is silently dropped. -/
def extractCitationsGo (details : CitationDetails) :
    List Str → List Str → List Citation
  | [], _ => []
  | m :: ms, seen =>
    if m ∈ seen then extractCitationsGo details ms seen
    else
      match lookupDetails details m with
      | some md =>
        ⟨m, md.fields, md.chunk_text⟩ :: extractCitationsGo details ms (m :: seen)
      | none => extractCitationsGo details ms (m :: seen)

/-- `ChatAgent.extractCitations` applied to the answer text. -/
def extractCitations (answer : Str) (details : CitationDetails) : List Citation :=
  extractCitationsGo details (citationMatches answer) []

/-- Keep the first occurrence of each element (relative to an initial
`seen` set), dropping later duplicates. -/
def firstOccurrencesFrom (seen : List Str) : List Str → List Str
  | [] => []
  | m :: ms =>
    if m ∈ seen then firstOccurrencesFrom seen ms
    else m :: firstOccurrencesFrom (m :: seen) ms

/-- Order-preserving deduplication by first occurrence. -/
def firstOccurrences (ms : List Str) : List Str :=
  firstOccurrencesFrom [] ms

theorem extractCitationsGo_closed_form (details : CitationDetails) :
    ∀ ms seen,
      extractCitationsGo details ms seen =
        (firstOccurrencesFrom seen ms).filterMap
          (fun tok => (lookupDetails details tok).map
            (fun md => ⟨tok, md.fields, md.chunk_text⟩)) := by
  intro ms
  induction ms with
  | nil => intro seen; rfl
  | cons m ms ih =>
    intro seen
    rw [extractCitationsGo, firstOccurrencesFrom]
    by_cases hm : m ∈ seen
    · simp only [if_pos hm]
      exact ih seen
    · simp only [if_neg hm, List.filterMap_cons]
      cases hl : lookupDetails details m with
      | none => simpa [hl] using ih (m :: seen)
      | some md => simpa [hl] using ih (m :: seen)

/-- **C2** (confirmed).  `extractCitations` equals: take the pattern
matches of the answer in left-to-right order, deduplicate them by exact
token text keeping the first occurrence, silently drop every token with
no entry in the token → metadata map, and return the remaining tokens in
that order, each carrying its metadata fields and original chunk text. -/
theorem C2_extractCitations_dedup_resolve (answer : Str) (details : CitationDetails) :
    extractCitations answer details =
      (firstOccurrences (citationMatches answer)).filterMap
        (fun tok => (lookupDetails details tok).map
          (fun md => ⟨tok, md.fields, md.chunk_text⟩))
    ∧ (extractCitations answer details).map Citation.label =
        (firstOccurrences (citationMatches answer)).filter
          (fun tok => (lookupDetails details tok).isSome) := by
  have hcf := extractCitationsGo_closed_form details (citationMatches answer) []
  refine ⟨hcf, ?_⟩
  rw [extractCitations, hcf, firstOccurrences]
  generalize firstOccurrencesFrom [] (citationMatches answer) = toks
  induction toks with
  | nil => rfl
  | cons t ts ih =>
    rw [List.filterMap_cons, List.filter_cons]
    cases hl : lookupDetails details t with
    | none => simpa [hl] using ih
    | some md => simpa [hl] using ih

/-- Concrete illustration of C2 on the spec's example: two occurrences of
`[a.pdf, p.3]` collapse to one entry, order is first-seen, and the
unresolvable `[ghost.pdf, p.1]` is dropped without error. -/
theorem extractCitations_example :
    (extractCitations
        (str "See [a.pdf, p.3] and [a.pdf, p.3]; also [b.pdf, p.9] and [ghost.pdf, p.1].")
        [(str "[a.pdf, p.3]", ⟨[(str "file_name", str "a.pdf")], str "alpha"⟩),
         (str "[b.pdf, p.9]", ⟨[(str "file_name", str "b.pdf")], str "beta"⟩)]).map
      Citation.label = [str "[a.pdf, p.3]", str "[b.pdf, p.9]"] := by
  decide

/-! ## Ingestion pipeline data model (src/lib/services) -/

/-- `file.type` from the data-sources configuration. -/
inductive FileType
  | pdf
  | text
  | table
deriving DecidableEq

/-- Storage target of a status row (`'vector' | 'sql'`). -/
inductive Target
  | vector
  | sql
deriving DecidableEq

/-- Load status of a file for one target. -/
inductive Status
  | not_loaded
  | loading
  | loaded
  | failed
deriving DecidableEq

/-- One declared data file (`DataFileConfig`). -/
structure DataFileConfig where
  name : Str
  type : FileType
  url : Option Str
  year : Option Nat
deriving DecidableEq

/-- One declared data source (`DataSourceConfig`). -/
structure DataSourceConfig where
  id : Str
  name : Str
  files : List DataFileConfig
deriving DecidableEq

/-- The data-sources configuration (`DataSourcesConfig`). -/
structure DataSourcesConfig where
  root_directory : Str
  sources : List DataSourceConfig
deriving DecidableEq

/-- One row of the `t_file` status table (`FileLoadStatus`). -/
structure FileStatusRow where
  data_source_id : Str
  file_name : Str
  target : Target
  status : Status
  message : Str
  url : Option Str
deriving DecidableEq

/-- A status write performed through `SQLStoreService.updateStatus`
(recorded in order, for the progress-message contract). -/
structure StatusWrite where
  data_source_id : Str
  file_name : Str
  target : Target
  status : Status
  message : Str
deriving DecidableEq

/-- Metadata attached to an embedded chunk (`DocumentMetadata`); the
`loaded_date` timestamp is environment-dependent and omitted. -/
structure DocMetadata where
  data_source_id : Str
  data_source_name : Str
  file_name : Str
  url : Option Str
  year : Option Nat
  page_number : Nat
deriving DecidableEq

/-- An embedded chunk as stored in the vector store (`Document`); the
embedding vector itself never influences the claims and is omitted. -/
structure Doc where
  content : Str
  metadata : DocMetadata
deriving DecidableEq

/-- One normalized CPI observation (`t_cpi_monthly` row). -/
structure CpiRow where
  ref_area_code : Str
  ref_area_name : Str
  time_period : Str
  inflation_pct : Rat
deriving DecidableEq

/-- The shared persistent state: status registry rows, the ordered log of
status writes, the vector store contents, the tabular store contents,
and the in-process single-flight lock flag of `LoadCoordinator`. -/
structure SysState where
  statuses : List FileStatusRow
  statusLog : List StatusWrite
  docs : List Doc
  cpi : List CpiRow
  lockHeld : Bool
deriving DecidableEq

/-- `SQLStoreService.getStatus`: the unique row keyed by
(data_source_id, file_name, target). -/
def getStatus (st : SysState) (sid fname : Str) (t : Target) : Option FileStatusRow :=
  st.statuses.find? (fun r =>
    decide (r.data_source_id = sid ∧ r.file_name = fname ∧ r.target = t))

/-- Upsert into the status table: on key conflict the status and message
columns are overwritten and the url column is written only when supplied
(`if (url) payload.url = url`), otherwise the stored url is preserved;
a fresh row gets the supplied url. -/
def upsertStatusRows (rows : List FileStatusRow) (sid fname : Str) (t : Target)
    (status : Status) (msg : Str) (url : Option Str) : List FileStatusRow :=
  match rows with
  | [] => [⟨sid, fname, t, status, msg, url⟩]
  | r :: rs =>
    if r.data_source_id = sid ∧ r.file_name = fname ∧ r.target = t then
      ⟨sid, fname, t, status, msg, url.or r.url⟩ :: rs
    else r :: upsertStatusRows rs sid fname t status msg url

/-- `SQLStoreService.updateStatus`, also appending to the write log. -/
def updateStatus (st : SysState) (sid fname : Str) (t : Target)
    (status : Status) (msg : Str) (url : Option Str) : SysState :=
  { st with
    statuses := upsertStatusRows st.statuses sid fname t status msg url
    statusLog := st.statusLog ++ [⟨sid, fname, t, status, msg⟩] }

/-- `SQLStoreService.resetStatuses`: set every row of the given targets
to `not_loaded` with the fixed reset message. -/
def resetStatuses (st : SysState) (targets : List Target) : SysState :=
  { st with
    statuses := st.statuses.map (fun r =>
      if r.target ∈ targets then
        { r with status := Status.not_loaded, message := str "Reset for reload" }
      else r) }

/-- `VectorStoreService.reset`: delete all documents. -/
def vectorReset (st : SysState) : SysState :=
  { st with docs := [] }

/-! ## Tabular (CSV) loader pieces -/

/-- JS `String.prototype.trim` (ASCII whitespace on this model). -/
def trimStr (s : Str) : Str :=
  (s.dropWhile isSpaceChar).reverse.dropWhile isSpaceChar |>.reverse

/-- `DataLoaderService.parseDate`: a `YYYY-MM` value is normalized to the
first day of the month; anything else passes through unchanged. -/
def parseDate (dateStr : Str) : Str :=
  match dateStr with
  | [y1, y2, y3, y4, dash, m1, m2] =>
    if isDigitChar y1 && isDigitChar y2 && isDigitChar y3 && isDigitChar y4 &&
        dash = '-' && isDigitChar m1 && isDigitChar m2 then
      [y1, y2, y3, y4, dash, m1, m2] ++ str "-01"
    else dateStr
  | _ => dateStr

/-- One parsed CSV record as produced by Papa.parse with `header: true`
and `dynamicTyping: true`.  A missing / empty (null) cell is `none`.
String-valued cells are carried verbatim; the numeric observation cells
are modelled after the `parseFloat(String(...))` coercion as rationals
(an unparsable value, which JS turns into `NaN` and then `|| 0` into
`0`, is modelled as an absent cell). -/
structure CsvRow where
  REF_AREA : Option Str
  LOCATION : Option Str
  Reference_area : Option Str
  Country : Option Str
  TIME_PERIOD : Option Str
  Time : Option Str
  OBS_VALUE : Option Rat
  Value : Option Rat
deriving DecidableEq

/-- The per-row mapping step of `DataLoaderService.loadTableFile`
(src/lib/services/dataLoaderService.ts:332-340):
`row['REF_AREA'] ?? row['LOCATION'] ?? ''` etc., with `String(...).trim()`
on code and name, `parseDate` on the period, and
`parseFloat(String(v ?? 0)) || 0` on the value. -/
def normalizeCsvRow (r : CsvRow) : CpiRow :=
  { ref_area_code := trimStr ((r.REF_AREA.or r.LOCATION).getD [])
    ref_area_name := trimStr (((r.Reference_area.or r.Country).or r.REF_AREA).getD [])
    time_period := parseDate ((r.TIME_PERIOD.or r.Time).getD [])
    inflation_pct := (r.OBS_VALUE.or r.Value).getD 0 }

/-- The `.map(...).filter(...)` pipeline producing `cpiData`: a row is
kept only when code, name and period are non-empty after normalization. -/
def cpiDataOf (rows : List CsvRow) : List CpiRow :=
  (rows.map normalizeCsvRow).filter (fun r =>
    decide (r.ref_area_code ≠ [] ∧ r.ref_area_name ≠ [] ∧ r.time_period ≠ []))

/-- The JS `Map` key used for deduplication:
`` `${row.ref_area_code}|${row.time_period}` ``. -/
def cpiKey (r : CpiRow) : Str := r.ref_area_code ++ '|' :: r.time_period

/-- `Map.set` on an insertion-ordered map: an existing key keeps its
position but receives the new value; a new key is appended. -/
def mapSetByKey (m : List CpiRow) (row : CpiRow) : List CpiRow :=
  match m with
  | [] => [row]
  | r :: rs => if cpiKey r = cpiKey row then row :: rs else r :: mapSetByKey rs row

/-- Deduplication by (area code, time period), keeping the
last-encountered row for a duplicate key, in first-insertion order. -/
def dedupLast (rows : List CpiRow) : List CpiRow :=
  rows.foldl mapSetByKey []

/-- `SQLStoreService.insertCPIData`: upsert into `t_cpi_monthly` with
conflict key (ref_area_code, time_period). -/
def upsertCpiRow (store : List CpiRow) (row : CpiRow) : List CpiRow :=
  match store with
  | [] => [row]
  | r :: rs =>
    if r.ref_area_code = row.ref_area_code ∧ r.time_period = row.time_period then
      row :: rs
    else r :: upsertCpiRow rs row

/-- Upsert a batch of rows in order. -/
def upsertCpiRows (store rows : List CpiRow) : List CpiRow :=
  rows.foldl upsertCpiRow store

/-! ## External collaborators -/

/-- Oracle for the external collaborators of the loader: the file
system / PDF extractor (`fs.readFile` / `pdf-parse`), the embedding
provider (`embeddingService.embedText`), the vector store back end and
the tabular store back end.  Each fallible call either succeeds or
throws with an error message. -/
structure World where
  fileExists : Str → Bool
  readText : Str → Except Str Str
  embed : Str → Except Str Unit
  addDocsErr : List Doc → Option Str
  readCsv : Str → Except Str (List CsvRow)
  insertCpiErr : List CpiRow → Option Str

/-- The progress message `` `Loading ${i}/${N}` ``. -/
def loadingMsg (current total : Nat) : Str :=
  str "Loading " ++ natToStr current ++ str "/" ++ natToStr total

/-- The summary message `` `Loaded ${N} chunks` ``. -/
def loadedMsg (total : Nat) : Str :=
  str "Loaded " ++ natToStr total ++ str " chunks"

/-- The embedding loop of `DataLoaderService.loadTextFile`
(src/lib/services/dataLoaderService.ts:245-282): for each chunk, embed
it, append the document (content, metadata with 1-based sequential
page number), and when `(i + 1) % progressStep == 0 || i == N - 1`
write the `loading` progress message.  An embedding exception aborts
the loop (propagating to the per-file handler). -/
def loadChunks (w : World) (src : DataSourceConfig) (file : DataFileConfig)
    (total progressStep : Nat) :
    List Str → Nat → List Doc → SysState → SysState × Except Str (List Doc)
  | [], _, acc, st => (st, Except.ok acc)
  | c :: cs, i, acc, st =>
    match w.embed c with
    | Except.error e => (st, Except.error e)
    | Except.ok _ =>
      let acc2 := acc ++ [⟨c, ⟨src.id, src.name, file.name, file.url, file.year, i + 1⟩⟩]
      let st2 :=
        if (i + 1) % progressStep = 0 ∨ i = total - 1 then
          updateStatus st src.id file.name Target.vector Status.loading
            (loadingMsg (i + 1) total) none
        else st
      loadChunks w src file total progressStep cs (i + 1) acc2 st2

/-- `DataLoaderService.loadTextFile` (src/lib/services/dataLoaderService.ts:217-295):
read/extract the text, chunk it, write `loading "Loading 0/N"`, run the
embedding loop with `progressStep = max(1, ⌊N / 20⌋)`, persist the whole
document batch, then write `loaded "Loaded N chunks"`.  Any thrown step
returns the error with the state reached so far. -/
def loadTextFile (w : World) (src : DataSourceConfig) (file : DataFileConfig)
    (path : Str) (st : SysState) : SysState × Except Str Unit :=
  match w.readText path with
  | Except.error e => (st, Except.error e)
  | Except.ok content =>
    let chunks := chunkText content CHUNK_SIZE CHUNK_OVERLAP
    let st1 := updateStatus st src.id file.name Target.vector Status.loading
      (loadingMsg 0 chunks.length) none
    let progressStep := max 1 (chunks.length / 20)
    match loadChunks w src file chunks.length progressStep chunks 0 [] st1 with
    | (st2, Except.error e) => (st2, Except.error e)
    | (st2, Except.ok docs) =>
      match w.addDocsErr docs with
      | some e => (st2, Except.error e)
      | none =>
        let st3 := { st2 with docs := st2.docs ++ docs }
        (updateStatus st3 src.id file.name Target.vector Status.loaded
          (loadedMsg docs.length) none, Except.ok ())

/-- `DataLoaderService.loadTableFile` (src/lib/services/dataLoaderService.ts:300-370):
write `loading "Loading 0/1"`, read + parse the CSV, normalize and
filter the rows, deduplicate keeping the last occurrence per key, upsert
into the tabular store, write `loading "Loading 1/1"` and finally
`loaded` with the dedup/raw counts. -/
def loadTableFile (w : World) (src : DataSourceConfig) (file : DataFileConfig)
    (path : Str) (st : SysState) : SysState × Except Str Unit :=
  let st1 := updateStatus st src.id file.name Target.sql Status.loading
    (str "Loading 0/1") none
  match w.readCsv path with
  | Except.error e => (st1, Except.error e)
  | Except.ok rows =>
    let cpiData := cpiDataOf rows
    let deduplicated := dedupLast cpiData
    match w.insertCpiErr deduplicated with
    | some e => (st1, Except.error e)
    | none =>
      let st2 := { st1 with cpi := upsertCpiRows st1.cpi deduplicated }
      let st3 := updateStatus st2 src.id file.name Target.sql Status.loading
        (str "Loading 1/1") none
      (updateStatus st3 src.id file.name Target.sql Status.loaded
        (str "Loaded " ++ natToStr deduplicated.length ++ str " unique rows (" ++
          natToStr cpiData.length ++ str " total)") none, Except.ok ())

/-! ## `DataLoaderService.load` -/

/-- `DataLoaderService.getTargetsForFile`. -/
def targetsForFile (file : DataFileConfig) : List Target :=
  match file.type with
  | FileType.table => [Target.sql]
  | _ => [Target.vector]

/-- `DataLoaderService.getFilePath`: `path.join(rootDir, source.id,
file.name)`.  The `process.cwd()`-relative resolution is
environment-dependent; the configured root directory is taken as the
resolved root. -/
def getFilePath (cfg : DataSourcesConfig) (src : DataSourceConfig)
    (file : DataFileConfig) : Str :=
  cfg.root_directory ++ '/' :: src.id ++ '/' :: file.name

/-- The fileId `` `${source.id}/${file.name}` `` used in the stats. -/
def fileIdOf (src : DataSourceConfig) (file : DataFileConfig) : Str :=
  src.id ++ '/' :: file.name

/-- The flattened `for (source of sources) for (file of source.files)`
iteration order. -/
def declaredFiles (cfg : DataSourcesConfig) : List (DataSourceConfig × DataFileConfig) :=
  cfg.sources.flatMap (fun src => src.files.map (fun f => (src, f)))

/-- One step of `DataLoaderService.initializeFileStatuses`: create a
missing row as `not_loaded` (with the configured url), or back-fill the
url of an existing row that has none. -/
def initFileStatuses (st : SysState) (src : DataSourceConfig)
    (file : DataFileConfig) : SysState :=
  (targetsForFile file).foldl
    (fun st2 t =>
      match getStatus st2 src.id file.name t with
      | none =>
        updateStatus st2 src.id file.name t Status.not_loaded
          (str "Not yet loaded") file.url
      | some existing =>
        match existing.url, file.url with
        | none, some u =>
          updateStatus st2 src.id file.name t existing.status existing.message (some u)
        | _, _ => st2)
    st

/-- `DataLoaderService.initializeFileStatuses` over all declared files. -/
def initializeFileStatuses (cfg : DataSourcesConfig) (st : SysState) : SysState :=
  (declaredFiles cfg).foldl (fun st2 p => initFileStatuses st2 p.1 p.2) st

/-- `DataLoaderService.shouldProcessFile`: `true` under policy `all`;
under `missing_only`, `true` iff some required target's status is absent
or different from `loaded`. -/
inductive LoadPolicy
  | missing_only
  | all
deriving DecidableEq

def shouldProcessFile (st : SysState) (src : DataSourceConfig)
    (file : DataFileConfig) (policy : LoadPolicy) : Bool :=
  match policy with
  | LoadPolicy.all => true
  | LoadPolicy.missing_only =>
    (targetsForFile file).any (fun t =>
      match getStatus st src.id file.name t with
      | none => true
      | some s => decide (s.status ≠ Status.loaded))

/-- The result record of `load` (`LoadStats`): processed file ids,
skipped file ids, and the fileId → error-message map (a JS object, so a
repeated key overwrites in place). -/
structure LoadStats where
  loaded : List Str
  skipped : List Str
  failed : List (Str × Str)
deriving DecidableEq

/-- JS object write `stats.failed[fileId] = msg`. -/
def setFailed (failed : List (Str × Str)) (fileId msg : Str) : List (Str × Str) :=
  match failed with
  | [] => [(fileId, msg)]
  | p :: ps => if p.1 = fileId then (fileId, msg) :: ps else p :: setFailed ps fileId msg

/-- The try-body of the per-file loop: existence check, then dispatch to
the text/PDF or the tabular loader. -/
def processFile (w : World) (cfg : DataSourcesConfig) (src : DataSourceConfig)
    (file : DataFileConfig) (st : SysState) : SysState × Except Str Unit :=
  let path := getFilePath cfg src file
  if w.fileExists path then
    match file.type with
    | FileType.pdf => loadTextFile w src file path st
    | FileType.text => loadTextFile w src file path st
    | FileType.table => loadTableFile w src file path st
  else (st, Except.error (str "File not found: " ++ path))

/-- Mark every target row of the file `failed` with the exception
message (the catch-handler of the per-file loop). -/
def markFailed (st : SysState) (src : DataSourceConfig) (file : DataFileConfig)
    (msg : Str) : SysState :=
  (targetsForFile file).foldl
    (fun st2 t => updateStatus st2 src.id file.name t Status.failed msg none) st

/-- One iteration of the per-file loop of `DataLoaderService.load`
(src/lib/services/dataLoaderService.ts:122-171): skip when the policy
says so; otherwise run the try-body, and catch any exception by
recording it in `stats.failed` and writing `failed` status rows — the
exception never leaves the iteration. -/
def loadFileStep (w : World) (cfg : DataSourcesConfig) (policy : LoadPolicy)
    (acc : SysState × LoadStats) (src : DataSourceConfig) (file : DataFileConfig) :
    SysState × LoadStats :=
  let st := acc.1
  let stats := acc.2
  let fileId := fileIdOf src file
  if shouldProcessFile st src file policy then
    match processFile w cfg src file st with
    | (st2, Except.ok _) =>
      (st2, { stats with loaded := stats.loaded ++ [fileId] })
    | (st2, Except.error e) =>
      (markFailed st2 src file e,
        { stats with failed := setFailed stats.failed fileId e })
  else (st, { stats with skipped := stats.skipped ++ [fileId] })

/-- The per-file loop over a list of declared files. -/
def loadFiles (w : World) (cfg : DataSourcesConfig) (policy : LoadPolicy)
    (files : List (DataSourceConfig × DataFileConfig))
    (acc : SysState × LoadStats) : SysState × LoadStats :=
  files.foldl (fun acc2 p => loadFileStep w cfg policy acc2 p.1 p.2) acc

/-- The refusal of a concurrent load: `LoadInProgressError` with its
default message, as opposed to any other (per-file, already caught)
failure. -/
inductive LoadError
  | inProgress
deriving DecidableEq

/-- The default `LoadInProgressError` message. -/
def loadInProgressMessage : Str :=
  str "A knowledge DB load is already in progress"

/-- `LoadCoordinator.tryAcquire` (src/lib/services/loadCoordinator.ts:7-15)
on the coordinator's `inProgress` flag: refuse when held, otherwise set
the flag and hand out the release closure.  The returned pair is
(handle?, new flag). -/
def tryAcquire (inProgress : Bool) : Option Unit × Bool :=
  if inProgress then (none, inProgress) else (some (), true)

/-- The release closure handed out by `tryAcquire`: clear the flag. -/
def releaseLock (_ : Bool) : Bool := false

/-- `DataLoaderService.load` (src/lib/services/dataLoaderService.ts:102-177):
acquire the single-flight lock (throwing `LoadInProgressError` untouched
when refused, before touching any store), initialize statuses, on policy
`all` reset the vector store and the status rows, run the per-file loop,
and release the lock in a `finally`. -/
def load (w : World) (cfg : DataSourcesConfig) (policy : LoadPolicy)
    (st : SysState) : Except LoadError LoadStats × SysState :=
  match (tryAcquire st.lockHeld).1 with
  | none => (Except.error LoadError.inProgress, st)
  | some _ =>
    let st1 := { st with lockHeld := true }
    let st2 := initializeFileStatuses cfg st1
    let st3 :=
      match policy with
      | LoadPolicy.all => resetStatuses (vectorReset st2) [Target.vector, Target.sql]
      | LoadPolicy.missing_only => st2
    let res := loadFiles w cfg policy (declaredFiles cfg) (st3, ⟨[], [], []⟩)
    (Except.ok res.2, { res.1 with lockHeld := releaseLock res.1.lockHeld })

/-! ## Lock and per-file isolation claims -/

theorem loadFiles_nil (w : World) (cfg : DataSourcesConfig) (policy : LoadPolicy)
    (acc : SysState × LoadStats) : loadFiles w cfg policy [] acc = acc := rfl

theorem loadFiles_cons (w : World) (cfg : DataSourcesConfig) (policy : LoadPolicy)
    (p : DataSourceConfig × DataFileConfig)
    (rest : List (DataSourceConfig × DataFileConfig)) (acc : SysState × LoadStats) :
    loadFiles w cfg policy (p :: rest) acc =
      loadFiles w cfg policy rest (loadFileStep w cfg policy acc p.1 p.2) := rfl

theorem find?_upsertStatusRows (rows : List FileStatusRow) (sid fname : Str)
    (t : Target) (status : Status) (msg : Str) (url : Option Str) :
    ∃ u, (upsertStatusRows rows sid fname t status msg url).find?
        (fun r => decide (r.data_source_id = sid ∧ r.file_name = fname ∧ r.target = t)) =
      some ⟨sid, fname, t, status, msg, u⟩ := by
  induction rows with
  | nil =>
    refine ⟨url, ?_⟩
    simp [upsertStatusRows, List.find?]
  | cons r rs ih =>
    have hstep : upsertStatusRows (r :: rs) sid fname t status msg url =
        if r.data_source_id = sid ∧ r.file_name = fname ∧ r.target = t then
          (⟨sid, fname, t, status, msg, url.or r.url⟩ : FileStatusRow) :: rs
        else r :: upsertStatusRows rs sid fname t status msg url := rfl
    by_cases hr : r.data_source_id = sid ∧ r.file_name = fname ∧ r.target = t
    · refine ⟨url.or r.url, ?_⟩
      rw [hstep, if_pos hr]
      simp [List.find?]
    · rw [hstep, if_neg hr]
      obtain ⟨u, hu⟩ := ih
      refine ⟨u, ?_⟩
      rw [List.find?_cons_of_neg, hu]
      simpa using hr

theorem getStatus_updateStatus_self (st : SysState) (sid fname : Str) (t : Target)
    (status : Status) (msg : Str) (url : Option Str) :
    (getStatus (updateStatus st sid fname t status msg url) sid fname t).map
      (fun r => (r.status, r.message)) = some (status, msg) := by
  obtain ⟨u, hu⟩ := find?_upsertStatusRows st.statuses sid fname t status msg url
  show ((upsertStatusRows st.statuses sid fname t status msg url).find?
      (fun r => decide (r.data_source_id = sid ∧ r.file_name = fname ∧ r.target = t))).map
      (fun r => (r.status, r.message)) = some (status, msg)
  rw [hu]
  rfl

theorem getStatus_markFailed_self (st : SysState) (src : DataSourceConfig)
    (file : DataFileConfig) (msg : Str) :
    ∀ t ∈ targetsForFile file,
      (getStatus (markFailed st src file msg) src.id file.name t).map
        (fun r => (r.status, r.message)) = some (Status.failed, msg) := by
  intro t ht
  cases htype : file.type <;>
    simp only [targetsForFile, htype, List.mem_singleton] at ht <;>
    subst ht <;>
    simp [markFailed, targetsForFile, htype, getStatus_updateStatus_self]

/-- **C4** (confirmed).  The single-flight lock: a first `tryAcquire`
yields the handle and marks the lock held; a second call before any
release is refused with no handle; running the release closure makes the
lock acquirable again; and a call to `load` while the lock is held is
refused with the distinguished `LoadInProgressError` condition, with the
entire state (status registry, vector store, tabular store) untouched. -/
theorem C4_single_flight_lock (w : World) (cfg : DataSourcesConfig)
    (policy : LoadPolicy) (st : SysState) :
    tryAcquire false = (some (), true)
    ∧ tryAcquire (tryAcquire false).2 = (none, true)
    ∧ tryAcquire (releaseLock (tryAcquire false).2) = (some (), true)
    ∧ (st.lockHeld = true →
        load w cfg policy st = (Except.error LoadError.inProgress, st)) := by
  refine ⟨rfl, rfl, rfl, ?_⟩
  intro h
  simp [load, tryAcquire, h]

/-- Witness for C4 on a concrete held lock. -/
theorem C4_single_flight_lock_witness :
    load ⟨fun _ => true, fun _ => Except.ok [], fun _ => Except.ok (),
        fun _ => none, fun _ => Except.error [], fun _ => none⟩
      ⟨[], []⟩ LoadPolicy.all ⟨[], [], [], [], true⟩ =
      (Except.error LoadError.inProgress, ⟨[], [], [], [], true⟩) := by
  exact (C4_single_flight_lock _ _ _ _).2.2.2 rfl

/-- **C5** (confirmed).  When the try-body for a declared file throws
with message `e` (file-not-found, extraction, embedding, CSV parsing, or
store-write failure), the per-file loop: (1) continues with exactly the
remaining declared files, starting from the state in which every status
row of the failed file is `failed` with message `e` and from stats whose
`failed` map has the fileId → `e` entry; (2) those status rows really
read back as `failed` with `e`; (3) with the lock free, `load` always
returns `ok` — no per-file exception ever reaches the caller. -/
theorem C5_per_file_failure_isolation (w : World) (cfg : DataSourcesConfig)
    (policy : LoadPolicy) (src : DataSourceConfig) (file : DataFileConfig)
    (rest : List (DataSourceConfig × DataFileConfig)) (st : SysState)
    (stats : LoadStats) (e : Str)
    (hproc : shouldProcessFile st src file policy = true)
    (herr : (processFile w cfg src file st).2 = Except.error e) :
    (loadFiles w cfg policy ((src, file) :: rest) (st, stats) =
      loadFiles w cfg policy rest
        (markFailed (processFile w cfg src file st).1 src file e,
          { stats with failed := setFailed stats.failed (fileIdOf src file) e }))
    ∧ (∀ t ∈ targetsForFile file,
        (getStatus (markFailed (processFile w cfg src file st).1 src file e)
            src.id file.name t).map (fun r => (r.status, r.message)) =
          some (Status.failed, e))
    ∧ (∀ st2 : SysState, st2.lockHeld = false →
        ∃ stats2, (load w cfg policy st2).1 = Except.ok stats2) := by
  refine ⟨?_, getStatus_markFailed_self _ src file e, ?_⟩
  · rw [loadFiles_cons]
    rcases hpf : processFile w cfg src file st with ⟨st2, exc⟩
    rw [hpf] at herr
    simp only at herr
    subst herr
    simp [loadFileStep, hproc, hpf]
  · intro st2 h2
    unfold load
    rw [h2]
    exact ⟨_, rfl⟩

/-- The initial (empty stores, lock free) state. -/
def emptyState : SysState := ⟨[], [], [], [], false⟩

/-- Empty `LoadStats`. -/
def emptyStats : LoadStats := ⟨[], [], []⟩

/-- The spec's example file `gdp.pdf`. -/
def fileGdp : DataFileConfig := ⟨str "gdp.pdf", FileType.pdf, none, none⟩

/-- The spec's example source `src1`. -/
def srcOne : DataSourceConfig := ⟨str "src1", str "Source One", [fileGdp]⟩

/-- A configuration declaring only `src1/gdp.pdf`. -/
def cfgOne : DataSourcesConfig := ⟨str "/data", [srcOne]⟩

/-- A world in which every external call succeeds and text extraction
yields a 2200-character document. -/
def okWorld : World :=
  ⟨fun _ => true, fun _ => Except.ok (List.replicate 2200 'x'),
    fun _ => Except.ok (), fun _ => none,
    fun _ => Except.error (str "no csv"), fun _ => none⟩

/-- A world in which no file exists (`fs.access` always throws). -/
def missingFileWorld : World :=
  ⟨fun _ => false, fun _ => Except.error (str "unreachable"),
    fun _ => Except.ok (), fun _ => none,
    fun _ => Except.error (str "no csv"), fun _ => none⟩

/-- Witness for C5: a missing file fails with `File not found: <path>`,
the status row reads `failed` with that message, the stats map records
it, and the batch result is well formed. -/
theorem C5_per_file_failure_isolation_witness :
    (getStatus (loadFiles missingFileWorld cfgOne LoadPolicy.all [(srcOne, fileGdp)]
        (emptyState, emptyStats)).1 (str "src1") (str "gdp.pdf") Target.vector).map
      (fun r => (r.status, r.message)) =
      some (Status.failed, str "File not found: /data/src1/gdp.pdf")
    ∧ (loadFiles missingFileWorld cfgOne LoadPolicy.all [(srcOne, fileGdp)]
        (emptyState, emptyStats)).2.failed =
      [(str "src1/gdp.pdf", str "File not found: /data/src1/gdp.pdf")] := by
  have h := C5_per_file_failure_isolation missingFileWorld cfgOne LoadPolicy.all srcOne
    fileGdp [] emptyState emptyStats (str "File not found: /data/src1/gdp.pdf")
    (by decide) (by decide)
  constructor
  · rw [h.1, loadFiles_nil]
    exact h.2.1 Target.vector (by decide)
  · rw [h.1, loadFiles_nil]
    decide

/-- **C6** (confirmed).  Under policy `missing_only`: the per-file check
returns "skip" exactly when every required target of the file has a
status row whose status is `loaded`; a skipped file is recorded in
`stats.skipped` and contributes no state change, the loop moving on to
the remaining files; a file failing the check (some target absent or not
`loaded`) is reprocessed through the try-body. -/
theorem C6_missing_only_policy (w : World) (cfg : DataSourcesConfig)
    (src : DataSourceConfig) (file : DataFileConfig)
    (rest : List (DataSourceConfig × DataFileConfig)) (st : SysState)
    (stats : LoadStats) :
    (shouldProcessFile st src file LoadPolicy.missing_only = false ↔
      ∀ t ∈ targetsForFile file, ∃ r, getStatus st src.id file.name t = some r ∧
        r.status = Status.loaded)
    ∧ (shouldProcessFile st src file LoadPolicy.missing_only = false →
        loadFiles w cfg LoadPolicy.missing_only ((src, file) :: rest) (st, stats) =
          loadFiles w cfg LoadPolicy.missing_only rest
            (st, { stats with skipped := stats.skipped ++ [fileIdOf src file] }))
    ∧ (shouldProcessFile st src file LoadPolicy.missing_only = true →
        loadFiles w cfg LoadPolicy.missing_only ((src, file) :: rest) (st, stats) =
          loadFiles w cfg LoadPolicy.missing_only rest
            (match processFile w cfg src file st with
              | (st2, Except.ok _) =>
                (st2, { stats with loaded := stats.loaded ++ [fileIdOf src file] })
              | (st2, Except.error e) =>
                (markFailed st2 src file e,
                  { stats with failed := setFailed stats.failed (fileIdOf src file) e }))) := by
  refine ⟨?_, ?_, ?_⟩
  · rw [shouldProcessFile]
    rw [List.any_eq_false]
    apply forall₂_congr
    intro t ht
    cases hg : getStatus st src.id file.name t with
    | none => simp
    | some r => simp
  · intro h
    rw [loadFiles_cons]
    simp [loadFileStep, h]
  · intro h
    rw [loadFiles_cons]
    rcases hpf : processFile w cfg src file st with ⟨st2, exc⟩
    cases exc <;> simp [loadFileStep, h, hpf]

/-- A state in which `src1/gdp.pdf` is already `loaded` for its vector
target. -/
def loadedState : SysState :=
  ⟨[⟨str "src1", str "gdp.pdf", Target.vector, Status.loaded,
      str "Loaded 3 chunks", none⟩], [], [], [], false⟩

/-- Witness for C6: an already-loaded file is skipped — the state is
untouched and the stats record only the skip. -/
theorem C6_missing_only_policy_witness :
    loadFiles okWorld cfgOne LoadPolicy.missing_only [(srcOne, fileGdp)]
      (loadedState, emptyStats) = (loadedState, ⟨[], [str "src1/gdp.pdf"], []⟩) := by
  have h := (C6_missing_only_policy okWorld cfgOne srcOne fileGdp [] loadedState
    emptyStats).2.1 (by decide)
  rw [h, loadFiles_nil]
  decide


/-- The documents built by the embedding loop for the given chunks, when
the running index starts at `i` (1-based page numbers `i + 1`, …). -/
def mkDocs (src : DataSourceConfig) (file : DataFileConfig) : List Str → Nat → List Doc
  | [], _ => []
  | c :: cs, i =>
    ⟨c, ⟨src.id, src.name, file.name, file.url, file.year, i + 1⟩⟩ ::
      mkDocs src file cs (i + 1)

theorem mkDocs_length (src : DataSourceConfig) (file : DataFileConfig) :
    ∀ chunks i, (mkDocs src file chunks i).length = chunks.length := by
  intro chunks
  induction chunks with
  | nil => intro i; rfl
  | cons c cs ih => intro i; simp [mkDocs, ih]

theorem mkDocs_map_triple (src : DataSourceConfig) (file : DataFileConfig) :
    ∀ chunks i,
      (mkDocs src file chunks i).map
          (fun d => (d.metadata.file_name, d.metadata.page_number, d.content.length)) =
        List.zipWith (fun n len => (file.name, n, len))
          (List.range' (i + 1) chunks.length) (chunks.map List.length) := by
  intro chunks
  induction chunks with
  | nil => intro i; rfl
  | cons c cs ih =>
    intro i
    simp only [mkDocs, List.map_cons, List.length_cons, List.range'_succ,
      List.zipWith_cons_cons]
    rw [ih (i + 1)]

theorem loadChunks_ok (w : World) (src : DataSourceConfig) (file : DataFileConfig)
    (total step : Nat) (hembed : ∀ c, w.embed c = Except.ok ()) :
    ∀ chunks i acc st,
      (loadChunks w src file total step chunks i acc st).1.docs = st.docs
      ∧ (loadChunks w src file total step chunks i acc st).1.cpi = st.cpi
      ∧ (loadChunks w src file total step chunks i acc st).2 =
          Except.ok (acc ++ mkDocs src file chunks i) := by
  intro chunks
  induction chunks with
  | nil => intro i acc st; simp [loadChunks, mkDocs]
  | cons c cs ih =>
    intro i acc st
    rw [loadChunks, hembed c]
    by_cases hcond : (i + 1) % step = 0 ∨ i = total - 1
    · simp only [if_pos hcond]
      obtain ⟨h1, h2, h3⟩ := ih (i + 1)
        (acc ++ [⟨c, ⟨src.id, src.name, file.name, file.url, file.year, i + 1⟩⟩])
        (updateStatus st src.id file.name Target.vector Status.loading
          (loadingMsg (i + 1) total) none)
      refine ⟨h1.trans rfl, h2.trans rfl, ?_⟩
      rw [h3]
      simp [mkDocs]
    · simp only [if_neg hcond]
      obtain ⟨h1, h2, h3⟩ := ih (i + 1)
        (acc ++ [⟨c, ⟨src.id, src.name, file.name, file.url, file.year, i + 1⟩⟩]) st
      refine ⟨h1, h2, ?_⟩
      rw [h3]
      simp [mkDocs]

theorem loadTextFile_success (w : World) (src : DataSourceConfig)
    (file : DataFileConfig) (path : Str) (st : SysState) (content : Str)
    (hread : w.readText path = Except.ok content)
    (hembed : ∀ c, w.embed c = Except.ok ())
    (haddok : ∀ d, w.addDocsErr d = none) :
    (loadTextFile w src file path st).2 = Except.ok ()
    ∧ (loadTextFile w src file path st).1.docs =
        st.docs ++ mkDocs src file (chunkText content CHUNK_SIZE CHUNK_OVERLAP) 0
    ∧ (getStatus (loadTextFile w src file path st).1 src.id file.name Target.vector).map
        (fun r => (r.status, r.message)) =
      some (Status.loaded, loadedMsg (chunkText content CHUNK_SIZE CHUNK_OVERLAP).length) := by
  rw [loadTextFile, hread]
  simp only
  rcases hlc : loadChunks w src file (chunkText content CHUNK_SIZE CHUNK_OVERLAP).length
    (max 1 ((chunkText content CHUNK_SIZE CHUNK_OVERLAP).length / 20))
    (chunkText content CHUNK_SIZE CHUNK_OVERLAP) 0 []
    (updateStatus st src.id file.name Target.vector Status.loading
      (loadingMsg 0 (chunkText content CHUNK_SIZE CHUNK_OVERLAP).length) none)
    with ⟨st2, res⟩
  obtain ⟨hdocs, hcpi, hres⟩ := loadChunks_ok w src file
    (chunkText content CHUNK_SIZE CHUNK_OVERLAP).length
    (max 1 ((chunkText content CHUNK_SIZE CHUNK_OVERLAP).length / 20)) hembed
    (chunkText content CHUNK_SIZE CHUNK_OVERLAP) 0 []
    (updateStatus st src.id file.name Target.vector Status.loading
      (loadingMsg 0 (chunkText content CHUNK_SIZE CHUNK_OVERLAP).length) none)
  rw [hlc] at hdocs hres
  simp only at hdocs hres
  subst hres
  dsimp only
  rw [haddok]
  refine ⟨rfl, ?_, ?_⟩
  · show ({ st2 with docs := st2.docs ++ ([] ++ mkDocs src file
        (chunkText content CHUNK_SIZE CHUNK_OVERLAP) 0) }).docs =
      st.docs ++ mkDocs src file (chunkText content CHUNK_SIZE CHUNK_OVERLAP) 0
    rw [List.nil_append]
    show st2.docs ++ _ = _
    rw [hdocs]
    rfl
  · dsimp only
    rw [List.nil_append, mkDocs_length]
    exact getStatus_updateStatus_self _ src.id file.name Target.vector Status.loaded
      (loadedMsg (chunkText content CHUNK_SIZE CHUNK_OVERLAP).length) none

theorem loadFileStep_ok (w : World) (cfg : DataSourcesConfig) (policy : LoadPolicy)
    (src : DataSourceConfig) (file : DataFileConfig) (st : SysState) (stats : LoadStats)
    (hproc : shouldProcessFile st src file policy = true)
    (hok : (processFile w cfg src file st).2 = Except.ok ()) :
    loadFileStep w cfg policy (st, stats) src file =
      ((processFile w cfg src file st).1,
        { stats with loaded := stats.loaded ++ [fileIdOf src file] }) := by
  rcases hpf : processFile w cfg src file st with ⟨st2, exc⟩
  rw [hpf] at hok
  simp only at hok
  subst hok
  simp [loadFileStep, hproc, hpf]

theorem processFile_pdf (w : World) (cfg : DataSourcesConfig) (src : DataSourceConfig)
    (file : DataFileConfig) (st : SysState)
    (htype : file.type = FileType.pdf)
    (hex : w.fileExists (getFilePath cfg src file) = true) :
    processFile w cfg src file st =
      loadTextFile w src file (getFilePath cfg src file) st := by
  rw [processFile, hex, htype]
  simp

/-- The state reached by `load(all)` on the singleton configuration just
before the per-file loop: one status row (reset), its creation logged,
empty stores, lock held. -/
def st3AfterInit : SysState :=
  ⟨[⟨str "src1", str "gdp.pdf", Target.vector, Status.not_loaded,
      str "Reset for reload", none⟩],
    [⟨str "src1", str "gdp.pdf", Target.vector, Status.not_loaded,
      str "Not yet loaded"⟩],
    [], [], true⟩

theorem load_cfgOne_unfold (w : World) :
    load w cfgOne LoadPolicy.all emptyState =
      (Except.ok (loadFiles w cfgOne LoadPolicy.all [(srcOne, fileGdp)]
          (st3AfterInit, emptyStats)).2,
        { (loadFiles w cfgOne LoadPolicy.all [(srcOne, fileGdp)]
            (st3AfterInit, emptyStats)).1 with lockHeld := false }) := rfl

theorem load_single_pdf_success (w : World) (content : Str)
    (hexists : w.fileExists (str "/data/src1/gdp.pdf") = true)
    (hread : w.readText (str "/data/src1/gdp.pdf") = Except.ok content)
    (hembed : ∀ c, w.embed c = Except.ok ())
    (haddok : ∀ d, w.addDocsErr d = none) :
    (load w cfgOne LoadPolicy.all emptyState).1 =
      Except.ok ⟨[str "src1/gdp.pdf"], [], []⟩
    ∧ (load w cfgOne LoadPolicy.all emptyState).2.docs =
        mkDocs srcOne fileGdp (chunkText content CHUNK_SIZE CHUNK_OVERLAP) 0
    ∧ (getStatus (load w cfgOne LoadPolicy.all emptyState).2 (str "src1")
          (str "gdp.pdf") Target.vector).map (fun r => (r.status, r.message)) =
        some (Status.loaded, loadedMsg (chunkText content CHUNK_SIZE CHUNK_OVERLAP).length) := by
  obtain ⟨hok, hdocs, hstatus⟩ := loadTextFile_success w srcOne fileGdp
    (str "/data/src1/gdp.pdf") st3AfterInit content hread hembed haddok
  have hpath : getFilePath cfgOne srcOne fileGdp = str "/data/src1/gdp.pdf" := by decide
  have hpf : processFile w cfgOne srcOne fileGdp st3AfterInit =
      loadTextFile w srcOne fileGdp (str "/data/src1/gdp.pdf") st3AfterInit := by
    rw [processFile_pdf w cfgOne srcOne fileGdp st3AfterInit rfl (by rw [hpath]; exact hexists)]
    rw [hpath]
  have hstep := loadFileStep_ok w cfgOne LoadPolicy.all srcOne fileGdp st3AfterInit
    emptyStats rfl (by rw [hpf]; exact hok)
  have hloop : loadFiles w cfgOne LoadPolicy.all [(srcOne, fileGdp)]
      (st3AfterInit, emptyStats) =
      ((loadTextFile w srcOne fileGdp (str "/data/src1/gdp.pdf") st3AfterInit).1,
        ⟨[str "src1/gdp.pdf"], [], []⟩) := by
    rw [loadFiles_cons, hstep, loadFiles_nil, hpf]
    exact congrArg (Prod.mk _) (by decide)
  rw [load_cfgOne_unfold w, hloop]
  refine ⟨rfl, ?_, ?_⟩
  · show (loadTextFile w srcOne fileGdp (str "/data/src1/gdp.pdf") st3AfterInit).1.docs = _
    rw [hdocs]
    rfl
  · exact hstatus

theorem chunkText_config (content : Str) :
    chunkText content CHUNK_SIZE CHUNK_OVERLAP = chunkText content 1000 200 := rfl

/-- **C3** (corrected).  End-to-end load of a 2200-character document
declared as `src1/gdp.pdf`: `chunkText` yields exactly 3 chunks of sizes
1000, 1000 and **600** (not 400 — the third window starts at character
1600 and is truncated at character 2200); `load('all')` returns the file
in `stats.loaded`; the (`src1`, `gdp.pdf`, vector) status row ends as
`loaded` with message exactly `"Loaded 3 chunks"`; and the vector store
holds exactly 3 documents for `gdp.pdf` with `page_number` 1, 2, 3. -/
theorem C3_end_to_end_three_chunks :
    (chunkText (List.replicate 2200 'x') 1000 200).map List.length = [1000, 1000, 600]
    ∧ (load okWorld cfgOne LoadPolicy.all emptyState).1 =
        Except.ok ⟨[str "src1/gdp.pdf"], [], []⟩
    ∧ (getStatus (load okWorld cfgOne LoadPolicy.all emptyState).2 (str "src1")
          (str "gdp.pdf") Target.vector).map (fun r => (r.status, r.message)) =
        some (Status.loaded, str "Loaded 3 chunks")
    ∧ ((load okWorld cfgOne LoadPolicy.all emptyState).2.docs.map
          (fun d => (d.metadata.file_name, d.metadata.page_number, d.content.length))) =
        [(str "gdp.pdf", 1, 1000), (str "gdp.pdf", 2, 1000), (str "gdp.pdf", 3, 600)] := by
  have hlens : (chunkText (List.replicate 2200 'x') 1000 200).map List.length =
      [1000, 1000, 600] := by
    rw [chunkText_replicate_lengths]
    decide
  have hn : (chunkText (List.replicate 2200 'x') 1000 200).length = 3 := by
    have h := congrArg List.length hlens
    rw [List.length_map] at h
    exact h.trans (by decide)
  obtain ⟨h1, h2, h3⟩ := load_single_pdf_success okWorld (List.replicate 2200 'x')
    rfl rfl (fun _ => rfl) (fun _ => rfl)
  rw [chunkText_config] at h2 h3
  have hmsg : loadedMsg (chunkText (List.replicate 2200 'x') 1000 200).length =
      str "Loaded 3 chunks" := by
    rw [hn]
    decide
  refine ⟨hlens, h1, ?_, ?_⟩
  · rw [← hmsg]
    exact h3
  · rw [h2, mkDocs_map_triple, hn, hlens]
    decide

/-- **C3 counterexample.**  The third chunk of a 2200-character document
is 600 characters long, not the 400 the claim states. -/
theorem C3_counterexample :
    (chunkText (List.replicate 2200 'x') 1000 200).map List.length = [1000, 1000, 600]
    ∧ (chunkText (List.replicate 2200 'x') 1000 200).map List.length ≠ [1000, 1000, 400] := by
  have hlens : (chunkText (List.replicate 2200 'x') 1000 200).map List.length =
      [1000, 1000, 600] := by
    rw [chunkText_replicate_lengths]
    decide
  refine ⟨hlens, ?_⟩
  rw [hlens]
  decide

theorem loadChunks_statusLog (w : World) (src : DataSourceConfig)
    (file : DataFileConfig) (total step : Nat)
    (hembed : ∀ c, w.embed c = Except.ok ()) :
    ∀ chunks i acc st,
      (loadChunks w src file total step chunks i acc st).1.statusLog =
        st.statusLog ++
          ((List.range' i chunks.length).filter
              (fun j => decide ((j + 1) % step = 0 ∨ j = total - 1))).map
            (fun j => ⟨src.id, file.name, Target.vector, Status.loading,
              loadingMsg (j + 1) total⟩) := by
  intro chunks
  induction chunks with
  | nil =>
    intro i acc st
    simp [loadChunks, List.range']
  | cons c cs ih =>
    intro i acc st
    rw [loadChunks, hembed c]
    dsimp only
    rw [List.length_cons, List.range'_succ]
    by_cases hcond : (i + 1) % step = 0 ∨ i = total - 1
    · have hfc : List.filter (fun j => decide ((j + 1) % step = 0 ∨ j = total - 1))
          (i :: List.range' (i + 1) cs.length) =
          i :: List.filter (fun j => decide ((j + 1) % step = 0 ∨ j = total - 1))
            (List.range' (i + 1) cs.length) := by
        simp [List.filter_cons, hcond]
      rw [if_pos hcond, hfc, List.map_cons, ih]
      show (updateStatus st src.id file.name Target.vector Status.loading
          (loadingMsg (i + 1) total) none).statusLog ++ _ = _
      show st.statusLog ++ [⟨src.id, file.name, Target.vector, Status.loading,
          loadingMsg (i + 1) total⟩] ++ _ = _
      rw [List.append_assoc]
      rfl
    · have hfc : List.filter (fun j => decide ((j + 1) % step = 0 ∨ j = total - 1))
          (i :: List.range' (i + 1) cs.length) =
          List.filter (fun j => decide ((j + 1) % step = 0 ∨ j = total - 1))
            (List.range' (i + 1) cs.length) := by
        simp [List.filter_cons, hcond]
      rw [if_neg hcond, hfc, ih]

theorem updateStatus_statusLog (st : SysState) (sid fname : Str) (t : Target)
    (status : Status) (msg : Str) (url : Option Str) :
    (updateStatus st sid fname t status msg url).statusLog =
      st.statusLog ++ [⟨sid, fname, t, status, msg⟩] := rfl

/-- **C8** (corrected).  The chunk loader's progress writes, in order:
first `loading` / `"Loading 0/N"` before any chunk is processed, then
`"Loading (i+1)/N"` exactly at the chunk indices `i` with
`(i + 1) % max(1, ⌊N / 20⌋) = 0` (roughly every 5 % of chunks, every
chunk when `N < 20`) and unconditionally at the last chunk `i = N - 1`;
every such message has total exactly `N`, and `N > 0` whenever the
extracted text is non-empty.  (The original claim's `total > 0` fails
for an empty text, where `"Loading 0/0"` is written — see the
counterexample.) -/
theorem C8_progress_message_schedule (w : World) (src : DataSourceConfig)
    (file : DataFileConfig) (path : Str) (st : SysState) (content : Str)
    (hread : w.readText path = Except.ok content)
    (hembed : ∀ c, w.embed c = Except.ok ())
    (hlog : st.statusLog = []) :
    (((loadTextFile w src file path st).1.statusLog.filter
        (fun e => decide (e.status = Status.loading))).map StatusWrite.message =
      loadingMsg 0 (chunkText content CHUNK_SIZE CHUNK_OVERLAP).length ::
        ((List.range (chunkText content CHUNK_SIZE CHUNK_OVERLAP).length).filter
            (fun i => decide
              ((i + 1) % max 1 ((chunkText content CHUNK_SIZE CHUNK_OVERLAP).length / 20) = 0
                ∨ i = (chunkText content CHUNK_SIZE CHUNK_OVERLAP).length - 1))).map
          (fun i => loadingMsg (i + 1) (chunkText content CHUNK_SIZE CHUNK_OVERLAP).length))
    ∧ (content ≠ [] → 0 < (chunkText content CHUNK_SIZE CHUNK_OVERLAP).length)
    ∧ ((chunkText content CHUNK_SIZE CHUNK_OVERLAP).length < 20 →
        max 1 ((chunkText content CHUNK_SIZE CHUNK_OVERLAP).length / 20) = 1) := by
  refine ⟨?_, ?_, ?_⟩
  · rw [loadTextFile, hread]
    dsimp only
    generalize chunkText content CHUNK_SIZE CHUNK_OVERLAP = chunks
    rcases hlc : loadChunks w src file chunks.length (max 1 (chunks.length / 20)) chunks 0 []
      (updateStatus st src.id file.name Target.vector Status.loading
        (loadingMsg 0 chunks.length) none) with ⟨st2, res⟩
    have hlog2 := loadChunks_statusLog w src file chunks.length
      (max 1 (chunks.length / 20)) hembed chunks 0 []
      (updateStatus st src.id file.name Target.vector Status.loading
        (loadingMsg 0 chunks.length) none)
    rw [hlc] at hlog2
    simp only at hlog2
    have hres := (loadChunks_ok w src file chunks.length
      (max 1 (chunks.length / 20)) hembed chunks 0 []
      (updateStatus st src.id file.name Target.vector Status.loading
        (loadingMsg 0 chunks.length) none)).2.2
    rw [hlc] at hres
    simp only at hres
    subst hres
    dsimp only
    rw [updateStatus_statusLog, hlog, List.nil_append] at hlog2
    have hkey : (st2.statusLog.filter
        (fun e => decide (e.status = Status.loading))).map StatusWrite.message =
        loadingMsg 0 chunks.length ::
          ((List.range chunks.length).filter
              (fun i => decide ((i + 1) % max 1 (chunks.length / 20) = 0
                ∨ i = chunks.length - 1))).map
            (fun i => loadingMsg (i + 1) chunks.length) := by
      rw [hlog2, List.range_eq_range']
      rw [List.filter_append, List.map_append]
      have h0 : List.filter (fun e => decide (e.status = Status.loading))
          [(⟨src.id, file.name, Target.vector, Status.loading,
            loadingMsg 0 chunks.length⟩ : StatusWrite)] =
          [⟨src.id, file.name, Target.vector, Status.loading,
            loadingMsg 0 chunks.length⟩] := rfl
      rw [h0]
      have hall : List.filter (fun e => decide (e.status = Status.loading))
          (((List.range' 0 chunks.length).filter
              (fun j => decide ((j + 1) % max 1 (chunks.length / 20) = 0
                ∨ j = chunks.length - 1))).map
            (fun j => (⟨src.id, file.name, Target.vector, Status.loading,
              loadingMsg (j + 1) chunks.length⟩ : StatusWrite))) =
          ((List.range' 0 chunks.length).filter
              (fun j => decide ((j + 1) % max 1 (chunks.length / 20) = 0
                ∨ j = chunks.length - 1))).map
            (fun j => (⟨src.id, file.name, Target.vector, Status.loading,
              loadingMsg (j + 1) chunks.length⟩ : StatusWrite)) := by
        apply List.filter_eq_self.mpr
        intro e he
        obtain ⟨j, hj, hje⟩ := List.mem_map.mp he
        rw [← hje]
        simp
      rw [hall, List.map_cons, List.map_map]
      rfl
    cases hadd : w.addDocsErr ([] ++ mkDocs src file chunks 0) with
    | some e =>
      dsimp only
      exact hkey
    | none =>
      dsimp only
      rw [updateStatus_statusLog]
      dsimp only
      rw [List.filter_append, List.map_append]
      have hld : List.filter (fun e => decide (e.status = Status.loading))
          [(⟨src.id, file.name, Target.vector, Status.loaded,
            loadedMsg ([] ++ mkDocs src file chunks 0).length⟩ : StatusWrite)] = [] := rfl
      rw [hld, List.map_nil, List.append_nil]
      exact hkey
  · intro hne
    rw [chunkText_config]
    have hlen := congrArg List.length (chunkText_closed_form content)
    rw [List.length_map, List.length_range] at hlen
    have hpos : 0 < content.length := List.length_pos.mpr hne
    rw [hlen]
    omega
  · intro hlt
    rw [chunkText_config] at hlt ⊢
    generalize (chunkText content 1000 200).length = N at hlt ⊢
    omega

/-- A world whose text extraction yields the 3-character text `"abc"`. -/
def smallTextWorld : World :=
  ⟨fun _ => true, fun _ => Except.ok (str "abc"), fun _ => Except.ok (),
    fun _ => none, fun _ => Except.error (str "no csv"), fun _ => none⟩

/-- Witness for C8: loading a 3-character file (one chunk) writes exactly
`"Loading 0/1"` then `"Loading 1/1"` as its `loading` messages. -/
theorem C8_progress_message_schedule_witness :
    ((loadTextFile smallTextWorld srcOne fileGdp (str "/data/src1/gdp.pdf")
        emptyState).1.statusLog.filter
        (fun e => decide (e.status = Status.loading))).map StatusWrite.message =
      [str "Loading 0/1", str "Loading 1/1"] := by
  have h := (C8_progress_message_schedule smallTextWorld srcOne fileGdp
    (str "/data/src1/gdp.pdf") emptyState (str "abc") rfl (fun _ => rfl) rfl).1
  rw [h]
  decide

theorem natToStrGo_ne_nil (fuel n : Nat) (h : 0 < fuel) : natToStrGo fuel n ≠ [] := by
  cases fuel with
  | zero => omega
  | succ f =>
    rw [natToStrGo]
    by_cases hn : n < 10
    · simp [hn]
    · simp [hn]

theorem mem_natToStrGo_digit (fuel : Nat) :
    ∀ n c, c ∈ natToStrGo fuel n → ∃ d, d < 10 ∧ c = Nat.digitChar d := by
  induction fuel with
  | zero =>
    intro n c h
    simp [natToStrGo] at h
  | succ f ih =>
    intro n c h
    rw [natToStrGo] at h
    by_cases hn : n < 10
    · rw [if_pos hn] at h
      simp at h
      exact ⟨n, hn, h⟩
    · rw [if_neg hn] at h
      rw [List.mem_append] at h
      rcases h with h | h
      · exact ih _ _ h
      · simp at h
        exact ⟨n % 10, Nat.mod_lt _ (by omega), h⟩

theorem slash_not_digitChar : ∀ d, d < 10 → ('/' : Char) ≠ Nat.digitChar d := by decide

theorem natToStr_no_slash (n : Nat) : '/' ∉ natToStr n := by
  intro h
  obtain ⟨d, hd, hc⟩ := mem_natToStrGo_digit (n + 1) n '/' h
  exact slash_not_digitChar d hd hc

theorem natToStr_singleton_zero (t : Nat) (h : natToStr t = ['0']) : t = 0 := by
  rw [natToStr, natToStrGo] at h
  by_cases ht : t < 10
  · rw [if_pos ht] at h
    have hc : Nat.digitChar t = '0' := by
      exact List.head_eq_of_cons_eq h
    have hz : ∀ d, d < 10 → Nat.digitChar d = '0' → d = 0 := by decide
    exact hz t ht hc
  · rw [if_neg ht] at h
    have hne : natToStrGo t (t / 10) ≠ [] := natToStrGo_ne_nil t (t / 10) (by omega)
    have hlen := congrArg List.length h
    rw [List.length_append] at hlen
    simp at hlen
    exact absurd hlen hne

theorem append_slash_inj (xs ys : Str) (hx : '/' ∉ xs)
    (h : xs ++ '/' :: ys = '0' :: '/' :: ['0']) : xs = ['0'] ∧ ys = ['0'] := by
  match xs, h with
  | [], h => simp at h
  | [a], h =>
    rw [List.cons_append, List.nil_append] at h
    have h1 := List.head_eq_of_cons_eq h
    have h2 := List.tail_eq_of_cons_eq h
    have h3 := List.tail_eq_of_cons_eq h2
    exact ⟨by rw [h1], h3⟩
  | a :: b :: xs2, h =>
    rw [List.cons_append, List.cons_append] at h
    have h2 := List.tail_eq_of_cons_eq h
    have hb := List.head_eq_of_cons_eq h2
    subst hb
    exact absurd (List.mem_cons_of_mem a (List.mem_cons_self '/' xs2)) hx

theorem loadingMsg_total_zero (c t : Nat)
    (h : loadingMsg c t = str "Loading 0/0") : t = 0 := by
  rw [loadingMsg, List.append_assoc, List.append_assoc] at h
  have hpre : str "Loading 0/0" = str "Loading " ++ (['0'] ++ (['/'] ++ ['0'])) := by decide
  rw [hpre] at h
  have h2 := List.append_cancel_left h
  have h3 : natToStr c ++ '/' :: natToStr t = '0' :: '/' :: ['0'] := by
    simpa using h2
  obtain ⟨hc, htt⟩ := append_slash_inj (natToStr c) (natToStr t)
    (natToStr_no_slash c) h3
  exact natToStr_singleton_zero t htt

/-- A world whose text extraction yields the empty text. -/
def emptyTextWorld : World :=
  ⟨fun _ => true, fun _ => Except.ok [], fun _ => Except.ok (),
    fun _ => none, fun _ => Except.error (str "no csv"), fun _ => none⟩

/-- **C8 counterexample.**  Loading an empty file writes the progress
message `"Loading 0/0"`, whose total is `0` — refuting the claim that
every written progress message has `total > 0`. -/
theorem C8_counterexample :
    ¬ (∀ m ∈ ((loadTextFile emptyTextWorld srcOne fileGdp (str "/data/src1/gdp.pdf")
          emptyState).1.statusLog.filter
          (fun e => decide (e.status = Status.loading))).map StatusWrite.message,
        ∃ c t, m = loadingMsg c t ∧ 0 < t) := by
  intro hcl
  have hm : str "Loading 0/0" ∈ ((loadTextFile emptyTextWorld srcOne fileGdp
      (str "/data/src1/gdp.pdf") emptyState).1.statusLog.filter
      (fun e => decide (e.status = Status.loading))).map StatusWrite.message := by
    decide
  obtain ⟨c, t, hmt, hpos⟩ := hcl _ hm
  have := loadingMsg_total_zero c t hmt.symm
  omega

theorem mem_mapSetByKey (m : List CpiRow) (row r : CpiRow)
    (h : r ∈ mapSetByKey m row) : r = row ∨ r ∈ m := by
  induction m with
  | nil =>
    rw [mapSetByKey] at h
    simp at h
    exact Or.inl h
  | cons x xs ih =>
    rw [mapSetByKey.eq_def] at h
    simp only at h
    by_cases hk : cpiKey x = cpiKey row
    · rw [if_pos hk] at h
      rcases List.mem_cons.mp h with h | h
      · exact Or.inl h
      · exact Or.inr (List.mem_cons_of_mem x h)
    · rw [if_neg hk] at h
      rcases List.mem_cons.mp h with h | h
      · exact Or.inr (h ▸ List.mem_cons_self x xs)
      · rcases ih h with h | h
        · exact Or.inl h
        · exact Or.inr (List.mem_cons_of_mem x h)

theorem mem_dedupLast_aux (l : List CpiRow) :
    ∀ acc r, r ∈ l.foldl mapSetByKey acc → r ∈ acc ∨ r ∈ l := by
  induction l with
  | nil =>
    intro acc r h
    exact Or.inl h
  | cons x xs ih =>
    intro acc r h
    rw [List.foldl_cons] at h
    rcases ih (mapSetByKey acc x) r h with h2 | h2
    · rcases mem_mapSetByKey acc x r h2 with h3 | h3
      · exact Or.inr (h3 ▸ List.mem_cons_self x xs)
      · exact Or.inl h3
    · exact Or.inr (List.mem_cons_of_mem x h2)

theorem mem_dedupLast (l : List CpiRow) (r : CpiRow) (h : r ∈ dedupLast l) : r ∈ l := by
  rcases mem_dedupLast_aux l [] r h with h2 | h2
  · simp at h2
  · exact h2

/-- **C7** (corrected).  The tabular loader's row filter: every row
reaching deduplication (and hence the store) has a non-empty area code,
area name and time period after normalization; a parsed row whose
normalized area code, area name or time period is empty never appears in
`cpiData`; but a row missing only the **numeric value** is NOT dropped —
its value is coerced to `0` and the row is kept.  (The original claim
listed the numeric value among the four required fields whose absence
drops the row.) -/
theorem C7_required_field_filter (rows : List CsvRow) :
    (∀ r ∈ dedupLast (cpiDataOf rows),
        r.ref_area_code ≠ [] ∧ r.ref_area_name ≠ [] ∧ r.time_period ≠ [])
    ∧ (∀ row ∈ rows,
        ((normalizeCsvRow row).ref_area_code = [] ∨
          (normalizeCsvRow row).ref_area_name = [] ∨
          (normalizeCsvRow row).time_period = []) →
        normalizeCsvRow row ∉ cpiDataOf rows)
    ∧ (∀ row : CsvRow, row.OBS_VALUE = none → row.Value = none →
        (normalizeCsvRow row).inflation_pct = 0) := by
  refine ⟨?_, ?_, ?_⟩
  · intro r hr
    have hmem := mem_dedupLast _ r hr
    have hfilter := (List.mem_filter.mp hmem).2
    simpa using of_decide_eq_true hfilter
  · intro row _ hbad hmem
    have hfilter := (List.mem_filter.mp hmem).2
    have h2 := of_decide_eq_true hfilter
    rcases hbad with h | h | h <;> simp [h] at h2
  · intro row hobs hval
    rw [normalizeCsvRow]
    rw [hobs, hval]
    rfl

/-- A parsed CSV row with area code, name and period present but no
numeric value cell. -/
def rowNoValue : CsvRow :=
  ⟨some (str "DEU"), none, some (str "Germany"), none, some (str "2024-01"),
    none, none, none⟩

/-- **C7 counterexample.**  A row missing the numeric value is kept (with
value 0) and reaches both deduplication and the upserted batch, refuting
"rows missing any of the four required fields are dropped". -/
theorem C7_counterexample :
    cpiDataOf [rowNoValue] = [⟨str "DEU", str "Germany", str "2024-01-01", 0⟩]
    ∧ dedupLast (cpiDataOf [rowNoValue]) =
        [⟨str "DEU", str "Germany", str "2024-01-01", 0⟩] := by
  constructor <;> decide

/-- A parsed CSV row with code and period but no resolvable area name
(only the legacy `LOCATION` code column is present). -/
def rowNoName : CsvRow :=
  ⟨none, some (str "FRA"), none, none, some (str "2024-02"), none, some 3, none⟩

/-- Witness for C7: the name-less row is dropped while the value-less row
is kept with value 0. -/
theorem C7_required_field_filter_witness :
    normalizeCsvRow rowNoName ∉ cpiDataOf [rowNoValue, rowNoName]
    ∧ (normalizeCsvRow rowNoValue).inflation_pct = 0 := by
  have h := C7_required_field_filter [rowNoValue, rowNoName]
  exact ⟨h.2.1 rowNoName (by decide) (by decide), h.2.2 rowNoValue rfl rfl⟩

/-! ## `SQLStoreService.getCPIData` and the `get_cpi` tool -/

/-- JS `toUpperCase`, restricted to ASCII letters (country codes). -/
def toUpperChar (c : Char) : Char :=
  if 'a' ≤ c ∧ c ≤ 'z' then Char.ofNat (c.toNat - 32) else c

/-- `countryCode.toUpperCase()`. -/
def toUpperStr (s : Str) : Str := s.map toUpperChar

/-- Byte-wise string ordering, as Postgres compares the `time_period`
date strings in `gte`/`lte` filters (C collation on ASCII dates). -/
def strLe : Str → Str → Bool
  | [], _ => true
  | _ :: _, [] => false
  | a :: as, b :: bs =>
    if a < b then true else if b < a then false else strLe as bs

/-- JS `month.padStart(2, '0')`. -/
def padStart2 (s : Str) : Str :=
  if s.length < 2 then List.replicate (2 - s.length) '0' ++ s else s

/-- The `startDate` of the `getCPIData` range filter. -/
def cpiStartDate (year : Str) (month : Option Str) : Str :=
  match month with
  | some m => year ++ '-' :: padStart2 m ++ str "-01"
  | none => year ++ str "-01-01"

/-- The `endDate` of the `getCPIData` range filter. -/
def cpiEndDate (year : Str) (month : Option Str) : Str :=
  match month with
  | some m => year ++ '-' :: padStart2 m ++ str "-31"
  | none => year ++ str "-12-31"

/-- The rows of `t_cpi_monthly` matching the query filters of
`SQLStoreService.getCPIData` (src/lib/services/sqlStoreService.ts:127-148):
area code equal to the upper-cased country code and, when a year is
given (a falsy/empty year behaves as absent), `time_period` between the
start and end dates.  The store's row order is the returned order. -/
def cpiMatches (rows : List CpiRow) (countryCode : Str)
    (year month : Option Str) : List CpiRow :=
  rows.filter (fun r =>
    decide (r.ref_area_code = toUpperStr countryCode) &&
      match year with
      | none => true
      | some y =>
        strLe (cpiStartDate y month) r.time_period &&
          strLe r.time_period (cpiEndDate y month))

/-- One row of the result of `getCPIData` (the `CPIData` shape). -/
structure CPIData where
  ref_area_code : Str
  ref_area_name : Str
  inflation_pct : Rat
deriving DecidableEq

/-- `SQLStoreService.getCPIData` (src/lib/services/sqlStoreService.ts:127-165):
query the matching rows; when any rows match, return a single row with
the first match's code and name and the arithmetic mean of all matching
`inflation_pct` values; otherwise return the empty list. -/
def getCPIData (rows : List CpiRow) (countryCode : Str)
    (year month : Option Str) : List CPIData :=
  match cpiMatches rows countryCode year month with
  | [] => []
  | r :: rest =>
    [⟨r.ref_area_code, r.ref_area_name,
      ((r :: rest).map CpiRow.inflation_pct).sum / ((r :: rest).length : Rat)⟩]

/-- **C10** (confirmed).  `getCPIData` returns at most one row: the empty
list when nothing matches the country/date filter, and otherwise a
single row carrying the first matching row's area code and name together
with the arithmetic mean of all matching `inflation_pct` values — so the
`get_cpi` tool reports an averaged figure, never an individual monthly
observation. -/
theorem C10_getCPIData_at_most_one_averaged (rows : List CpiRow)
    (countryCode : Str) (year month : Option Str) :
    (getCPIData rows countryCode year month).length ≤ 1
    ∧ (cpiMatches rows countryCode year month = [] →
        getCPIData rows countryCode year month = [])
    ∧ (∀ r rest, cpiMatches rows countryCode year month = r :: rest →
        getCPIData rows countryCode year month =
          [⟨r.ref_area_code, r.ref_area_name,
            ((r :: rest).map CpiRow.inflation_pct).sum / ((r :: rest).length : Rat)⟩]) := by
  refine ⟨?_, ?_, ?_⟩
  · rw [getCPIData]
    cases cpiMatches rows countryCode year month with
    | nil => simp
    | cons r rest => simp
  · intro h
    rw [getCPIData, h]
  · intro r rest h
    rw [getCPIData, h]

/-- Two stored monthly observations for Germany in 2024. -/
def deuRows : List CpiRow :=
  [⟨str "DEU", str "Germany", str "2024-01-01", 2⟩,
    ⟨str "DEU", str "Germany", str "2024-02-01", 4⟩]

/-- Witness for C10: a year-only query over two monthly observations
(2 % and 4 %) returns one row with the mean 3 %. -/
theorem C10_getCPIData_at_most_one_averaged_witness :
    getCPIData deuRows (str "deu") (some (str "2024")) none =
      [⟨str "DEU", str "Germany", 3⟩] := by
  have h := (C10_getCPIData_at_most_one_averaged deuRows (str "deu")
    (some (str "2024")) none).2.2
    ⟨str "DEU", str "Germany", str "2024-01-01", 2⟩
    [⟨str "DEU", str "Germany", str "2024-02-01", 4⟩] (by decide)
  rw [h]
  norm_num

/-! ## `ChatAgent` / the chat route (src/lib/agents/chatAgent.ts,
src/app/api/chat/route.ts) -/

/-- The citation token derived in `ChatAgent.buildPrompt`:
`` `[${fileName}, p.${pageNumber}]` `` with an empty (falsy) file name
replaced by `'Unknown'`. -/
def expectedCitation (m : DocMetadata) : Str :=
  '[' :: (if m.file_name = [] then str "Unknown" else m.file_name) ++
    str ", p." ++ natToStr m.page_number ++ [']']

/-- `String(value)` of an optional string field (`undefined` prints as
`"undefined"`). -/
def optionStr (o : Option Str) : Str :=
  match o with
  | some s => s
  | none => str "undefined"

/-- `String(value)` of an optional numeric field. -/
def optionNatStr (o : Option Nat) : Str :=
  match o with
  | some n => natToStr n
  | none => str "undefined"

/-- The stringified metadata entries of a chunk, in the insertion order
of the metadata object literal (the environment-dependent `loaded_date`
timestamp is omitted from the model). -/
def metaFields (m : DocMetadata) : List (Str × Str) :=
  [(str "data_source_id", m.data_source_id),
    (str "data_source_name", m.data_source_name),
    (str "file_name", m.file_name),
    (str "url", optionStr m.url),
    (str "year", optionNatStr m.year),
    (str "page_number", natToStr m.page_number)]

/-- JS object property write `details[tok] = md` (overwrite in place,
else append). -/
def detailsInsert (d : CitationDetails) (tok : Str) (md : CitationMeta) : CitationDetails :=
  match d with
  | [] => [(tok, md)]
  | p :: ps => if p.1 = tok then (tok, md) :: ps else p :: detailsInsert ps tok md

/-- The token → metadata map built by `ChatAgent.buildPrompt`
(src/lib/agents/chatAgent.ts:136-180): for each retrieved document, in
order, bind its citation token to its metadata plus raw chunk text.  The
assembled prompt text itself is consumed only by the external reasoning
model, which the oracle script below abstracts. -/
def buildPromptDetails (docs : List Doc) : CitationDetails :=
  docs.foldl (fun d doc =>
    detailsInsert d (expectedCitation doc.metadata)
      ⟨metaFields doc.metadata, doc.content⟩) []

/-- One response of the reasoning model: either a batch of tool-call
requests or a final (possibly null) text content. -/
inductive LlmTurn
  | toolCalls (names : List Str)
  | content (text : Option Str)

/-- Oracle for the chat pipeline's external collaborators: the vector
store emptiness check, the retrieved documents of the similarity search,
and the reasoning model's successive responses. -/
structure ChatWorld where
  isEmpty : Bool
  retrieved : List Doc
  llmScript : List LlmTurn

/-- The tool-calling loop of `ChatAgent.processMessage`
(src/lib/agents/chatAgent.ts:54-122): one model call consumes one script
entry; while the response carries tool calls, the executed tool results
are appended to the transcript (which only the external model reads, so
the oracle script already accounts for them) and the model is invoked
again.  Returns the final content and the number of model invocations. -/
def agentLoop : List LlmTurn → Nat → Option Str × Nat
  | [], n => (none, n)
  | LlmTurn.content c :: _, n => (c, n + 1)
  | LlmTurn.toolCalls _ :: rest, n => agentLoop rest (n + 1)

/-- The answer returned by the agent. -/
structure AgentAnswer where
  text : Str
  citations : List Citation
deriving DecidableEq

/-- `ChatAgent.processMessage`: retrieve, build the citation map, run
the tool-calling loop, fall back to `'No response generated'` on a null
or empty (falsy) content, and extract the citations from the final
answer text.  The user message and history reach only the embedding
provider and the reasoning model, both folded into the oracle. -/
def processMessage (w : ChatWorld) (_userMessage : Str)
    (_history : List (Str × Str)) : AgentAnswer × Nat :=
  let details := buildPromptDetails w.retrieved
  let res := agentLoop w.llmScript 0
  let answerText :=
    match res.1 with
    | some t => if t = [] then str "No response generated" else t
    | none => str "No response generated"
  (⟨answerText, extractCitations answerText details⟩, res.2)

/-- The fixed empty-knowledge-base response of the chat route. -/
def emptyDbText : Str :=
  str "The knowledge database is empty. Please load documents first using the \"Load DB\" button in the sidebar."

/-- The chat route `POST` handler (src/app/api/chat/route.ts:61-79) after
input validation: check `vectorStore.isEmpty()` and short-circuit with
the fixed text and no citations, otherwise run the agent. -/
def postChat (w : ChatWorld) (userMessage : Str)
    (history : List (Str × Str)) : AgentAnswer × Nat :=
  if w.isEmpty then (⟨emptyDbText, []⟩, 0)
  else processMessage w userMessage history

/-- **C9** (confirmed).  For every query against an empty vector store,
the pipeline short-circuits: it returns exactly the fixed
"knowledge database is empty" text with an empty citation list, and the
reasoning model is invoked zero times, whatever the retrieval results or
the model script would have been. -/
theorem C9_empty_store_short_circuit (w : ChatWorld) (userMessage : Str)
    (history : List (Str × Str)) (h : w.isEmpty = true) :
    postChat w userMessage history = (⟨emptyDbText, []⟩, 0) := by
  rw [postChat, if_pos h]

/-- Witness for C9 on a concrete empty-store world. -/
theorem C9_empty_store_short_circuit_witness :
    postChat ⟨true, [], [LlmTurn.content (some (str "hello"))]⟩
      (str "What is GDP?") [] = (⟨emptyDbText, []⟩, 0) :=
  C9_empty_store_short_circuit _ _ _ rfl
